import Mathlib

/-!
Shallow embedding of the derived-metrics computation pipeline of the
mental-health dashboard repository (data_overview.py,
diagnostic_analytics.py, professional_insights.py).

Rows of the survey table are records of the categorical fields listed in
the data model; the `treatment` field is an integer (pre-normalized to
0/1 by the external loader), `age` an integer, `year` a natural number.
Rational numbers stand in for the floating-point values of the source;
`Option` marks values that are NaN / missing (pandas) or a raised
exception, as noted at each definition.
-/

structure Row where
  year : Nat
  age : Int
  treatment : Int
  gender : String
  self_employed : String
  family_history : String
  work_interfere : String
  benefits : String
  care_options : String
  wellness_program : String
  seek_help : String
  anonymity : String
  leave : String
  mental_health_consequence : String
  coworkers : String
  supervisor : String
  no_employees : String
  tech_company : String
deriving DecidableEq, Repr

/-- A row with every categorical field empty (an unmapped label everywhere),
used to build concrete test rows by record update. -/
def baseRow : Row :=
  { year := 2014, age := 30, treatment := 0, gender := "", self_employed := ""
  , family_history := "", work_interfere := "", benefits := "", care_options := ""
  , wellness_program := "", seek_help := "", anonymity := "", leave := ""
  , mental_health_consequence := "", coworkers := "", supervisor := ""
  , no_employees := "", tech_company := "" }

/-! ## Composite risk scorer (professional_insights.py, tab 2)

`risk_map` is the shared categorical risk scale; `map(risk_map)` leaves an
unmapped label as NaN and `.fillna(0)` turns it into 0, which `riskValue`
captures with `Option.getD 0`.  `risk_factors` is the fixed factor/weight
table and `composite_score` the per-row weighted sum. -/

def risk_map (s : String) : Option ℚ :=
  if s = "Yes" then some 1
  else if s = "No" then some 0
  else if s = "Sometimes" then some (1/2)
  else if s = "Often" then some 1
  else if s = "Rarely" then some (1/4)
  else if s = "Very difficult" then some 1
  else if s = "Somewhat difficult" then some (3/5)
  else none

def riskValue (s : String) : ℚ := (risk_map s).getD 0

def risk_factors : List ((Row → String) × ℚ) :=
  [(Row.family_history, 3/10), (Row.work_interfere, 1/4), (Row.anonymity, 1/5),
   (Row.mental_health_consequence, 3/20), (Row.leave, 1/10)]

def composite_score (r : Row) : ℚ :=
  (risk_factors.map (fun fw => riskValue (fw.1 r) * fw.2)).sum

/-! ## Correlation-data ordinal encodings (diagnostic_analytics.py)

`work_interfere` is mapped through `interference_map` and NaN filled with 0;
`leave` through `leave_map` and NaN filled with the image of the
"Don\x27t know" label (2). -/

def interference_map (s : String) : Option ℚ :=
  if s = "Never" then some 0
  else if s = "Rarely" then some 1
  else if s = "Sometimes" then some 2
  else if s = "Often" then some 3
  else none

def leave_map (s : String) : Option ℚ :=
  if s = "Very easy" then some 0
  else if s = "Somewhat easy" then some 1
  else if s = "Don\x27t know" then some 2
  else if s = "Somewhat difficult" then some 3
  else if s = "Very difficult" then some 4
  else none

def encode_work_interfere (s : String) : ℚ := (interference_map s).getD 0

def encode_leave (s : String) : ℚ := (leave_map s).getD 2

/-! ## Intervention combiner (professional_insights.py, tab 3) -/

inductive InterventionName
  | managerTraining
  | therapyCoverage
  | flexibleHours
  | mentalHealthDays
deriving DecidableEq, Repr

def interventionCost : InterventionName → ℚ
  | .managerTraining => 500
  | .therapyCoverage => 1200
  | .flexibleHours => 200
  | .mentalHealthDays => 50

def interventionEffect : InterventionName → ℚ × ℚ
  | .managerTraining => (8/100, 15/100)
  | .therapyCoverage => (12/100, 25/100)
  | .flexibleHours => (5/100, 12/100)
  | .mentalHealthDays => (3/100, 8/100)

def total_cost (sel : List InterventionName) : ℚ :=
  (sel.map interventionCost).sum

def min_effect (sel : List InterventionName) : ℚ :=
  (sel.map (fun i => (interventionEffect i).1)).sum

def max_effect (sel : List InterventionName) : ℚ :=
  (sel.map (fun i => (interventionEffect i).2)).sum

def allInterventions : List InterventionName :=
  [.managerTraining, .therapyCoverage, .flexibleHours, .mentalHealthDays]

/-! ## Aggregate rates by year (data_overview.py)

`support_trends` models one cell of the support-trend table: the fraction of
"Yes" among the rows of one year whose value for the chosen support column
lies in the set containing "Yes" and "No".  The source assigns the per-year
grouped series into a table indexed by both years, so a year with no
qualifying rows receives NaN (here `none`) unless the whole filtered table
is empty, in which case the column is set to the constant 0.

`treatment_by_year` models
`df.groupby(year).treatment.value_counts(normalize).unstack().fillna(0)`
followed by the positional column rename and `.loc[year, second column]`:
the columns after `unstack` are the sorted distinct treatment values over
the whole table, patched so that 0 and 1 both appear; the second column
(labelled as the sought-treatment one) is 1 except when the table has
treatment value 1 but never 0, in which case the appended 0 column sits
second.  `.loc` on a year absent from the data raises a KeyError, modelled
as `none`. -/

def support_filter (rows : List Row) (col : Row → String) : List Row :=
  rows.filter (fun r => col r == "Yes" || col r == "No")

def support_trends (rows : List Row) (col : Row → String) (year : Nat) : Option ℚ :=
  let f := support_filter rows col
  if f.isEmpty then some 0
  else
    let yr := f.filter (fun r => r.year == year)
    if yr.isEmpty then none
    else some ((yr.countP (fun r => col r == "Yes") : ℚ) / (yr.length : ℚ))

def soughtColumnCategory (rows : List Row) : Int :=
  if rows.any (fun r => r.treatment == 1) && !(rows.any (fun r => r.treatment == 0))
  then 0 else 1

def treatment_by_year (rows : List Row) (year : Nat) : Option ℚ :=
  let yr := rows.filter (fun r => r.year == year)
  if yr.isEmpty then none
  else
    let cat := soughtColumnCategory rows
    some ((yr.countP (fun r => r.treatment == cat) : ℚ) / (yr.length : ℚ))

/-! ## ROI calculator (professional_insights.py, tab 1)

`loss_rates` maps interference levels to productivity-loss percentages; the
source applies it with `.map(loss_rates)` and no `fillna`, so an unmapped
label stays NaN (`none`) and the subsequent `.mean()` skips it
(`meanSkipNA`).  The ROI formula then follows the source line by line. -/

def loss_rates (s : String) : Option ℚ :=
  if s = "Never" then some 0
  else if s = "Rarely" then some 3
  else if s = "Sometimes" then some 12
  else if s = "Often" then some 25
  else none

def productivity_loss (avg_salary : ℚ) (r : Row) : Option ℚ :=
  (loss_rates r.work_interfere).map (fun v => v * avg_salary / 100)

def meanSkipNA (xs : List (Option ℚ)) : Option ℚ :=
  let v := xs.filterMap id
  if v.isEmpty then none else some (v.sum / (v.length : ℚ))

def effectiveness : ℚ := 42 / 100

def baseline_loss (rows : List Row) (avg_salary company_size : ℚ) : Option ℚ :=
  (meanSkipNA (rows.map (productivity_loss avg_salary))).map (fun m => m * company_size)

def roi (rows : List Row) (avg_salary program_cost company_size compliance_rate : ℚ) :
    Option ℚ :=
  (baseline_loss rows avg_salary company_size).map (fun b =>
    let adjusted_loss := b * (1 - effectiveness * compliance_rate / 100)
    let savings := b - adjusted_loss
    (savings - program_cost * company_size) / (program_cost * company_size))

/-! ## Table-level frame model

A `Table` is the survey data frame: its column-name list and its rows.  The
ROI tab writes `df[productivity_loss] = ...` into the caller's table, which
appends that column when absent (pandas overwrites it in place when
present); the risk scorer and the correlation builder both start from
`df.copy()` and hand the input back untouched. -/

structure Table where
  cols : List String
  rows : List Row
deriving DecidableEq, Repr

def baseCols : List String :=
  ["year", "age", "treatment", "gender", "self_employed", "family_history",
   "work_interfere", "benefits", "care_options", "wellness_program",
   "seek_help", "anonymity", "leave", "mental_health_consequence",
   "coworkers", "supervisor", "no_employees", "tech_company"]

def roiStep (t : Table) (avg_salary program_cost company_size compliance_rate : ℚ) :
    Option ℚ × Table :=
  (roi t.rows avg_salary program_cost company_size compliance_rate,
   { cols := if t.cols.contains "productivity_loss" then t.cols
             else t.cols ++ ["productivity_loss"],
     rows := t.rows })

def riskScoresStep (t : Table) : List ℚ × Table :=
  (t.rows.map composite_score, t)

/-! ## Correlation-matrix encoding (diagnostic_analytics.py)

After the two ordinal maps, the columns still of object dtype (all except
`leave`, `treatment`, `work_interfere`) are one-hot expanded by
`pd.get_dummies(..., drop_first := True)`: for each such column the distinct
observed labels are taken in sorted order, the first (reference) category is
dropped, and one indicator column named `col_label` is created per kept
label.  Non-expanded columns keep their original relative order and the
dummy groups follow in the original column order. -/

def insertSortedDistinct (x : String) : List String → List String
  | [] => [x]
  | y :: ys =>
    if x = y then y :: ys
    else if x < y then x :: y :: ys
    else y :: insertSortedDistinct x ys

def sortedCats (values : List String) : List String :=
  values.foldr insertSortedDistinct []

def dummyCols (colName : String) (values : List String) : List String :=
  ((sortedCats values).drop 1).map (fun v => colName ++ "_" ++ v)

def objectFields : List (String × (Row → String)) :=
  [("gender", Row.gender), ("self_employed", Row.self_employed),
   ("family_history", Row.family_history), ("benefits", Row.benefits),
   ("care_options", Row.care_options), ("wellness_program", Row.wellness_program),
   ("seek_help", Row.seek_help), ("anonymity", Row.anonymity),
   ("mental_health_consequence", Row.mental_health_consequence),
   ("coworkers", Row.coworkers), ("supervisor", Row.supervisor),
   ("no_employees", Row.no_employees), ("tech_company", Row.tech_company)]

def encodedColumns (rows : List Row) : List String :=
  ["leave", "treatment", "work_interfere"] ++
    objectFields.flatMap (fun f => dummyCols f.1 (rows.map f.2))

def encodedTreatmentCol (rows : List Row) : List Int :=
  rows.map (fun r => r.treatment)

def prepare_correlation_data (t : Table) : List String × Table :=
  (encodedColumns t.rows, t)

/-! ## Pearson correlation matrix (diagnostic_analytics.py, `df_corr.corr()`)

Pearson correlation of two equal-length numeric columns: the dot product of
the centred columns over the geometric mean of their centred squared norms
(the sample-size normalisations cancel).  The value is a real number because
of the square root; the centred sums themselves stay rational and
computable. -/

def mean (xs : List ℚ) : ℚ := xs.sum / (xs.length : ℚ)

def devs (xs : List ℚ) : List ℚ := xs.map (fun x => x - mean xs)

def dot (xs ys : List ℚ) : ℚ := ((xs.zip ys).map (fun p => p.1 * p.2)).sum

noncomputable def pearson (xs ys : List ℚ) : ℝ :=
  ((dot (devs xs) (devs ys) : ℚ) : ℝ) /
    Real.sqrt (((dot (devs xs) (devs xs) * dot (devs ys) (devs ys) : ℚ) : ℝ))

noncomputable def correlation_matrix (cols : List (List ℚ)) (i j : Nat) : ℝ :=
  pearson (cols.getD i []) (cols.getD j [])

/-! ## Concrete rows used in counterexamples and witnesses -/

/-- A row holding the highest-risk label of every risk factor. -/
def highRiskRow : Row :=
  { baseRow with
      family_history := "Yes"
      work_interfere := "Often"
      anonymity := "Yes"
      mental_health_consequence := "Yes"
      leave := "Very difficult" }

/-- A 2014 row whose benefits answer is outside the Yes/No support domain. -/
def rowMaybe2014 : Row :=
  { baseRow with
      year := 2014
      benefits := "Maybe" }

/-- A 2016 row answering Yes to benefits. -/
def rowYes2016 : Row :=
  { baseRow with
      year := 2016
      benefits := "Yes"
      treatment := 1 }

/-- A row reporting interference level Often. -/
def rowOften : Row :=
  { baseRow with work_interfere := "Often" }

/-- A row whose interference answer N/A is outside the loss-rate map. -/
def rowNA : Row :=
  { baseRow with work_interfere := "N/A" }

/-- A copy of the base row in the other survey year. -/
def baseRow2016 : Row :=
  { baseRow with year := 2016 }

/-! # Theorems -/

/-! ## Helper lemmas about rational ratios of counts -/

theorem ratio_bounds (a b : Nat) (hab : a ≤ b) (hb : 0 < b) :
    0 ≤ (a : ℚ) / (b : ℚ) ∧ (a : ℚ) / (b : ℚ) ≤ 1 := by
  constructor
  · exact div_nonneg (by positivity) (by positivity)
  · rw [div_le_one (by exact_mod_cast hb)]
    exact_mod_cast hab

/-! ## Claim C2 : composite risk scorer -/

/-- Claim C2: for every row the composite risk score is the weighted sum of
the five risk factors, each mapped through the shared risk scale with
fallback 0; a row holding the highest-risk label of every factor scores
exactly 1 and a row with every factor unmapped scores exactly 0. -/
theorem claim2_theorem :
    (∀ r : Row, composite_score r =
      riskValue r.family_history * (3/10) + riskValue r.work_interfere * (1/4) +
        riskValue r.anonymity * (1/5) + riskValue r.mental_health_consequence * (3/20) +
        riskValue r.leave * (1/10)) ∧
    riskValue "Yes" = 1 ∧ riskValue "No" = 0 ∧ riskValue "Sometimes" = 1/2 ∧
    riskValue "Often" = 1 ∧ riskValue "Rarely" = 1/4 ∧ riskValue "Very difficult" = 1 ∧
    riskValue "Somewhat difficult" = 3/5 ∧
    (∀ s, risk_map s = none → riskValue s = 0) ∧
    composite_score highRiskRow = 1 ∧ composite_score baseRow = 0 := by
  refine ⟨fun r => ?_, by simp +decide [riskValue, risk_map], by simp +decide [riskValue, risk_map],
    by simp +decide [riskValue, risk_map], by simp +decide [riskValue, risk_map],
    by simp +decide [riskValue, risk_map], by simp +decide [riskValue, risk_map],
    by simp +decide [riskValue, risk_map], fun s hs => ?_, ?_, ?_⟩
  · simp [composite_score, risk_factors]; ring
  · simp [riskValue, hs]
  · simp +decide [composite_score, risk_factors, riskValue, risk_map, highRiskRow, baseRow]
    norm_num
  · simp +decide [composite_score, risk_factors, riskValue, risk_map, baseRow]

/-- Witness for claim C2 at a concrete unmapped label. -/
theorem claim2_witness : riskValue "nan" = 0 :=
  claim2_theorem.2.2.2.2.2.2.2.2.1 "nan" (by decide)

/-! ## Claim C3 : correlation-data ordinal encodings -/

/-- Claim C3: the correlation encoding maps work_interfere through
Never 0, Rarely 1, Sometimes 2, Often 3 with every other value sent to 0,
and maps leave through Very easy 0, Somewhat easy 1, Don\x27t know 2,
Somewhat difficult 3, Very difficult 4 with every other value sent to 2;
both encoders are total functions. -/
theorem claim3_theorem :
    encode_work_interfere "Never" = 0 ∧ encode_work_interfere "Rarely" = 1 ∧
    encode_work_interfere "Sometimes" = 2 ∧ encode_work_interfere "Often" = 3 ∧
    (∀ s, s ∉ ["Never", "Rarely", "Sometimes", "Often"] → encode_work_interfere s = 0) ∧
    encode_leave "Very easy" = 0 ∧ encode_leave "Somewhat easy" = 1 ∧
    encode_leave "Don\x27t know" = 2 ∧ encode_leave "Somewhat difficult" = 3 ∧
    encode_leave "Very difficult" = 4 ∧
    (∀ s, s ∉ ["Very easy", "Somewhat easy", "Don\x27t know", "Somewhat difficult",
      "Very difficult"] → encode_leave s = 2) := by
  refine ⟨by decide, by decide, by decide, by decide, fun s hs => ?_, by decide, by decide,
    by decide, by decide, by decide, fun s hs => ?_⟩
  · simp only [List.mem_cons, List.not_mem_nil, or_false, not_or] at hs
    obtain ⟨h1, h2, h3, h4⟩ := hs
    simp [encode_work_interfere, interference_map, h1, h2, h3, h4]
  · simp only [List.mem_cons, List.not_mem_nil, or_false, not_or] at hs
    obtain ⟨h1, h2, h3, h4, h5⟩ := hs
    simp [encode_leave, leave_map, h1, h2, h3, h4, h5]

/-- Witness for claim C3 at a concrete unmapped label. -/
theorem claim3_witness : encode_work_interfere "nan" = 0 ∧ encode_leave "nan" = 2 :=
  ⟨claim3_theorem.2.2.2.2.1 "nan" (by decide),
   claim3_theorem.2.2.2.2.2.2.2.2.2.2 "nan" (by decide)⟩

/-! ## Claim C6 : intervention combiner -/

/-- Claim C6: the intervention combiner is additive over the selection —
the empty selection yields cost 0 and effect range 0 to 0, the full
selection yields the sum of all four costs (1950) and the elementwise sums
of the effect ranges (0.28 to 0.60), and cost and both effect bounds add
over concatenation of selections. -/
theorem claim6_theorem :
    total_cost [] = 0 ∧ min_effect [] = 0 ∧ max_effect [] = 0 ∧
    total_cost allInterventions = 1950 ∧
    min_effect allInterventions = 28/100 ∧ max_effect allInterventions = 60/100 ∧
    (∀ s t : List InterventionName,
      total_cost (s ++ t) = total_cost s + total_cost t ∧
      min_effect (s ++ t) = min_effect s + min_effect t ∧
      max_effect (s ++ t) = max_effect s + max_effect t) := by
  refine ⟨rfl, rfl, rfl, ?_, ?_, ?_, fun s t => ⟨?_, ?_, ?_⟩⟩
  · norm_num [total_cost, allInterventions, interventionCost]
  · norm_num [min_effect, allInterventions, interventionEffect]
  · norm_num [max_effect, allInterventions, interventionEffect]
  · simp [total_cost]
  · simp [min_effect]
  · simp [max_effect]

/-! ## Claim C1 : aggregate rates by year -/

theorem support_trends_some_bounds (rows : List Row) (col : Row → String) (year : Nat)
    (q : ℚ) (h : support_trends rows col year = some q) : 0 ≤ q ∧ q ≤ 1 := by
  by_cases h1 : (support_filter rows col).isEmpty
  · simp only [support_trends, h1, if_true, Option.some.injEq] at h
    subst h
    norm_num
  · by_cases h2 : ((support_filter rows col).filter (fun r => r.year == year)).isEmpty
    · simp [support_trends, h1, h2] at h
    · simp only [support_trends, h1, h2, if_false, Option.some.injEq, Bool.false_eq_true] at h
      subst h
      have hne : ((support_filter rows col).filter (fun r => r.year == year)) ≠ [] :=
        fun hnil => h2 (List.isEmpty_iff.mpr hnil)
      exact ratio_bounds _ _ (List.countP_le_length _) (List.length_pos.mpr hne)

theorem support_trends_none_iff (rows : List Row) (col : Row → String) (year : Nat) :
    support_trends rows col year = none ↔
      support_filter rows col ≠ [] ∧
        ((support_filter rows col).filter (fun r => r.year == year)) = [] := by
  simp only [support_trends]
  split_ifs with h1 h2
  · simp [List.isEmpty_iff.mp h1]
  · simp only [List.isEmpty_iff] at h1 h2
    simp [h1, h2]
  · simp only [List.isEmpty_iff] at h1 h2
    simp [h1, h2]

theorem treatment_by_year_some_bounds (rows : List Row) (year : Nat) (q : ℚ)
    (h : treatment_by_year rows year = some q) : 0 ≤ q ∧ q ≤ 1 := by
  by_cases h1 : (rows.filter (fun r => r.year == year)).isEmpty
  · simp [treatment_by_year, h1] at h
  · simp only [treatment_by_year, h1, if_false, Option.some.injEq, Bool.false_eq_true] at h
    subst h
    have hne : (rows.filter (fun r => r.year == year)) ≠ [] :=
      fun hnil => h1 (List.isEmpty_iff.mpr hnil)
    exact ratio_bounds _ _ (List.countP_le_length _) (List.length_pos.mpr hne)

theorem treatment_by_year_none_iff (rows : List Row) (year : Nat) :
    treatment_by_year rows year = none ↔ (rows.filter (fun r => r.year == year)) = [] := by
  simp only [treatment_by_year]
  split_ifs with h1
  · simp [List.isEmpty_iff.mp h1]
  · simp only [List.isEmpty_iff] at h1
    simp [h1]

/-- Claim C1 counterexample: in a table whose 2014 row answers Maybe to
benefits (so 2014 has zero qualifying rows after the Yes/No restriction)
while 2016 has a qualifying row, the 2014 support rate is the missing value
NaN (`none`), not 0 as the claim states; and the treatment-rate lookup on a
queried year absent from the data is a KeyError (`none`), not a rate. -/
theorem claim1_counterexample :
    support_trends [rowMaybe2014, rowYes2016] Row.benefits 2014 = none ∧
    (none : Option ℚ) ≠ some 0 ∧
    treatment_by_year [rowYes2016] 2014 = none := by
  refine ⟨by decide, by decide, by decide⟩

/-- Claim C1 amended: the support-rate computation is total and every rate
it returns lies in the unit interval; when no row at all qualifies after the
Yes/No restriction every queried year receives 0; but a year with zero
qualifying rows while another year has some receives the missing value NaN
(`none`), not 0.  The treatment-rate lookup returns a rate in the unit
interval exactly for queried years present in the data and raises (is
`none`) for absent ones. -/
theorem claim1_theorem (rows : List Row) (col : Row → String) (year : Nat) :
    (support_filter rows col = [] → support_trends rows col year = some 0) ∧
    (∀ q, support_trends rows col year = some q → 0 ≤ q ∧ q ≤ 1) ∧
    (support_trends rows col year = none ↔
      support_filter rows col ≠ [] ∧
        ((support_filter rows col).filter (fun r => r.year == year)) = []) ∧
    (∀ q, treatment_by_year rows year = some q → 0 ≤ q ∧ q ≤ 1) ∧
    (treatment_by_year rows year = none ↔ (rows.filter (fun r => r.year == year)) = []) := by
  refine ⟨fun h => ?_, support_trends_some_bounds rows col year,
    support_trends_none_iff rows col year, treatment_by_year_some_bounds rows year,
    treatment_by_year_none_iff rows year⟩
  simp [support_trends, h]

/-- Witness for claim C1 at a concrete table containing one qualifying
2016 row. -/
theorem claim1_witness : 0 ≤ (1 : ℚ) ∧ (1 : ℚ) ≤ 1 :=
  (claim1_theorem [rowYes2016] Row.benefits 2016).2.1 1
    (by simp +decide [support_trends, support_filter, rowYes2016, baseRow])

/-! ## Claim C4 : frame effect of the metric computations -/

/-- Claim C4 counterexample: invoking the ROI computation on a table that
does not yet have a productivity_loss column hands back a changed table —
the column set has grown — so not every Metrics Engine computation leaves
the input table unchanged. -/
theorem claim4_counterexample :
    (roiStep ⟨baseCols, []⟩ 85000 1200 250 65).2 ≠ (⟨baseCols, []⟩ : Table) := by
  decide

/-- Claim C4 amended: the risk scorer and the correlation builder hand the
input table back unchanged, and the ROI computation leaves the rows and
every column other than productivity_loss untouched, but writes a
productivity_loss column into the input table. -/
theorem claim4_theorem (t : Table) (salary cost size rate : ℚ) :
    (riskScoresStep t).2 = t ∧
    (prepare_correlation_data t).2 = t ∧
    (roiStep t salary cost size rate).2.rows = t.rows ∧
    "productivity_loss" ∈ (roiStep t salary cost size rate).2.cols ∧
    (∀ c, c ≠ "productivity_loss" →
      (c ∈ (roiStep t salary cost size rate).2.cols ↔ c ∈ t.cols)) := by
  refine ⟨rfl, rfl, rfl, ?_, fun c hc => ?_⟩
  · simp only [roiStep]
    split_ifs with h
    · simpa using h
    · simp
  · simp only [roiStep]
    split_ifs with h
    · exact Iff.rfl
    · simp [hc]

/-- Witness for claim C4 at a concrete table and column. -/
theorem claim4_witness :
    ("gender" ∈ (roiStep ⟨baseCols, []⟩ 85000 1200 250 65).2.cols ↔ "gender" ∈ baseCols) :=
  (claim4_theorem ⟨baseCols, []⟩ 85000 1200 250 65).2.2.2.2 "gender" (by decide)

/-! ## Claim C8 : fallbacks for unmapped category values -/

/-- Claim C8 counterexample: under the productivity-loss rates, the table
holding one Often row and one N/A row has mean productivity loss 25 (the
N/A row is left NaN by the mapping and skipped by the mean), whereas the
claimed fallback-0 contribution would give (25 + 0) / 2. -/
theorem claim8_counterexample :
    meanSkipNA ([rowOften, rowNA].map (productivity_loss 100)) = some 25 ∧
    (25 : ℚ) ≠ (25 + 0) / 2 := by
  constructor
  · simp +decide [meanSkipNA, productivity_loss, loss_rates, rowOften, rowNA, baseRow]
  · norm_num

/-- Claim C8 amended: the risk scorer and the two correlation encoders
resolve every unmapped category value to their documented fallbacks (0, 0
and 2 respectively) and never raise; but the productivity-loss mapping
leaves an unmapped value (such as N/A) missing, and the mean then excludes
that row from the aggregate instead of counting a fallback 0 for it. -/
theorem claim8_theorem :
    (∀ s, risk_map s = none → riskValue s = 0) ∧
    (∀ s, interference_map s = none → encode_work_interfere s = 0) ∧
    (∀ s, leave_map s = none → encode_leave s = 2) ∧
    loss_rates "N/A" = none ∧
    (∀ (rows : List Row) (salary : ℚ),
      meanSkipNA ((rows.filter (fun r => (loss_rates r.work_interfere).isSome)).map
          (productivity_loss salary)) =
        meanSkipNA (rows.map (productivity_loss salary))) := by
  have aux : ∀ (rows : List Row) (salary : ℚ),
      ((rows.filter (fun r => (loss_rates r.work_interfere).isSome)).map
        (productivity_loss salary)).filterMap id =
      ((rows.map (productivity_loss salary)).filterMap id) := by
    intro rows salary
    induction rows with
    | nil => rfl
    | cons r rs ih =>
      by_cases h : (loss_rates r.work_interfere).isSome
      · obtain ⟨v, hv⟩ := Option.isSome_iff_exists.mp h
        simp [List.filter_cons, h, productivity_loss, hv, ih]
      · have hnone : loss_rates r.work_interfere = none := Option.not_isSome_iff_eq_none.mp h
        simp [List.filter_cons, h, productivity_loss, hnone, ih]
  refine ⟨fun s hs => by simp [riskValue, hs], fun s hs => by simp [encode_work_interfere, hs],
    fun s hs => by simp [encode_leave, hs], by decide, fun rows salary => ?_⟩
  simp only [meanSkipNA, aux rows salary]

/-- Witness for claim C8 at the concrete unmapped label N/A. -/
theorem claim8_witness :
    riskValue "N/A" = 0 ∧ encode_work_interfere "N/A" = 0 ∧ encode_leave "N/A" = 2 :=
  ⟨claim8_theorem.1 "N/A" (by decide), claim8_theorem.2.1 "N/A" (by decide),
   claim8_theorem.2.2.1 "N/A" (by decide)⟩

/-! ## Claim C5 : ROI projection -/

theorem loss_rates_nonneg (s : String) (q : ℚ) (h : loss_rates s = some q) : 0 ≤ q := by
  simp only [loss_rates] at h
  split_ifs at h <;> simp only [Option.some.injEq, reduceCtorEq] at h <;> subst h <;> norm_num

theorem meanSkipNA_nonneg (xs : List (Option ℚ)) (hx : ∀ o ∈ xs, ∀ q, o = some q → 0 ≤ q)
    (m : ℚ) (hm : meanSkipNA xs = some m) : 0 ≤ m := by
  by_cases he : (xs.filterMap id).isEmpty
  · simp [meanSkipNA, he] at hm
  · simp only [meanSkipNA, he, if_false, Option.some.injEq, Bool.false_eq_true] at hm
    subst hm
    apply div_nonneg
    · apply List.sum_nonneg
      intro a ha
      obtain ⟨o, ho, hoa⟩ := List.mem_filterMap.mp ha
      exact hx o ho a hoa
    · positivity

theorem baseline_loss_nonneg (rows : List Row) (salary size b : ℚ)
    (hs : 0 ≤ salary) (hsize : 0 ≤ size)
    (hb : baseline_loss rows salary size = some b) : 0 ≤ b := by
  simp only [baseline_loss, Option.map_eq_some'] at hb
  obtain ⟨m, hm, rfl⟩ := hb
  have hmn : 0 ≤ m := by
    apply meanSkipNA_nonneg _ _ m hm
    intro o ho q hoq
    obtain ⟨r, _, hr⟩ := List.mem_map.mp ho
    subst hr
    simp only [productivity_loss, Option.map_eq_some'] at hoq
    obtain ⟨v, hv, rfl⟩ := hoq
    have := loss_rates_nonneg _ _ hv
    positivity
  positivity

/-- Claim C5: with salary nonnegative, headcount in bounds, program cost in
bounds and participation rates in bounds, the ROI denominator
program_cost × headcount is never zero, and the ROI projection is
monotonically non-decreasing in the participation rate whenever it is
defined. -/
theorem claim5_theorem (rows : List Row) (salary cost size r1 r2 : ℚ)
    (hs : 0 ≤ salary) (hc : 100 ≤ cost) (hc2 : cost ≤ 5000)
    (hh : 10 ≤ size) (hh2 : size ≤ 50000)
    (hr1 : 10 ≤ r1) (hr12 : r1 ≤ r2) (hr2 : r2 ≤ 100) :
    cost * size ≠ 0 ∧
    (∀ q1 q2, roi rows salary cost size r1 = some q1 →
      roi rows salary cost size r2 = some q2 → q1 ≤ q2) := by
  have hC : 0 < cost * size := by nlinarith
  refine ⟨ne_of_gt hC, fun q1 q2 h1 h2 => ?_⟩
  simp only [roi, Option.map_eq_some'] at h1 h2
  obtain ⟨b1, hb1, rfl⟩ := h1
  obtain ⟨b2, hb2, rfl⟩ := h2
  have hbb : b1 = b2 := by
    rw [hb1] at hb2
    exact Option.some.inj hb2
  subst hbb
  have hbpos : 0 ≤ b1 := baseline_loss_nonneg rows salary size b1 hs (by linarith) hb1
  have heff : (0 : ℚ) ≤ effectiveness := by norm_num [effectiveness]
  have hsav : b1 * (effectiveness * r1 / 100) ≤ b1 * (effectiveness * r2 / 100) := by
    apply mul_le_mul_of_nonneg_left _ hbpos
    apply (div_le_div_right (by norm_num)).mpr
    exact mul_le_mul_of_nonneg_left hr12 heff
  rw [div_le_div_iff hC hC]
  nlinarith [mul_le_mul_of_nonneg_right hsav (le_of_lt hC)]

/-- Witness for claim C5 at a concrete one-row table and concrete
parameters. -/
theorem claim5_witness :
    (100 : ℚ) * 10 ≠ 0 ∧ ((-1979 : ℚ)/2000 ≤ (-179 : ℚ)/200) := by
  have h := claim5_theorem [rowOften] 100 100 10 10 100 (by norm_num) (by norm_num)
    (by norm_num) (by norm_num) (by norm_num) (by norm_num) (by norm_num) (by norm_num)
  refine ⟨h.1, h.2 _ _ ?_ ?_⟩
  · simp +decide [roi, baseline_loss, meanSkipNA, productivity_loss, loss_rates,
      rowOften, baseRow, effectiveness]
    norm_num
  · simp +decide [roi, baseline_loss, meanSkipNA, productivity_loss, loss_rates,
      rowOften, baseRow, effectiveness]
    norm_num

/-! ## Sorted-distinct insertion: lemmas for the one-hot category ordering -/

theorem insertSortedDistinct_mem (x a : String) (l : List String) :
    a ∈ insertSortedDistinct x l ↔ a = x ∨ a ∈ l := by
  induction l with
  | nil => simp [insertSortedDistinct]
  | cons y ys ih =>
    simp only [insertSortedDistinct]
    split_ifs with h1 h2
    · subst h1
      simp only [List.mem_cons]
      tauto
    · simp [List.mem_cons]
    · simp only [List.mem_cons, ih]
      tauto

theorem insertSortedDistinct_sorted (x : String) (l : List String)
    (h : l.Sorted (· < ·)) : (insertSortedDistinct x l).Sorted (· < ·) := by
  induction l with
  | nil => simp [insertSortedDistinct]
  | cons y ys ih =>
    rw [List.sorted_cons] at h
    obtain ⟨hy, hys⟩ := h
    simp only [insertSortedDistinct]
    split_ifs with h1 h2
    · exact List.sorted_cons.mpr ⟨hy, hys⟩
    · refine List.sorted_cons.mpr ⟨?_, List.sorted_cons.mpr ⟨hy, hys⟩⟩
      intro b hb
      rcases List.mem_cons.mp hb with rfl | hb'
      · exact h2
      · exact lt_trans h2 (hy b hb')
    · have hyx : y < x := lt_of_le_of_ne (not_lt.mp h2) (fun he => h1 he.symm)
      refine List.sorted_cons.mpr ⟨?_, ih hys⟩
      intro b hb
      rcases (insertSortedDistinct_mem x b ys).mp hb with rfl | hb'
      · exact hyx
      · exact hy b hb'

theorem sortedCats_sorted (v : List String) : (sortedCats v).Sorted (· < ·) := by
  induction v with
  | nil => simp [sortedCats]
  | cons x xs ih => exact insertSortedDistinct_sorted x _ ih

theorem sortedCats_mem (v : List String) (a : String) : a ∈ sortedCats v ↔ a ∈ v := by
  induction v with
  | nil => simp [sortedCats]
  | cons x xs ih =>
    show a ∈ insertSortedDistinct x (sortedCats xs) ↔ _
    rw [insertSortedDistinct_mem, ih]
    simp [List.mem_cons, eq_comm]

theorem sortedCats_nodup (v : List String) : (sortedCats v).Nodup :=
  (sortedCats_sorted v).nodup

theorem sortedCats_eq_of_toFinset_eq (v1 v2 : List String)
    (h : v1.toFinset = v2.toFinset) : sortedCats v1 = sortedCats v2 := by
  have h1 : (sortedCats v1).toFinset = (sortedCats v2).toFinset := by
    ext a
    simp only [List.mem_toFinset, sortedCats_mem]
    have := Finset.ext_iff.mp h a
    simpa [List.mem_toFinset] using this
  have hperm := List.perm_of_nodup_nodup_toFinset_eq (sortedCats_nodup v1)
    (sortedCats_nodup v2) h1
  exact List.eq_of_perm_of_sorted hperm
    ((sortedCats_sorted v1).imp (fun hab => le_of_lt hab))
    ((sortedCats_sorted v2).imp (fun hab => le_of_lt hab))

theorem sortedCats_toFinset (v : List String) : (sortedCats v).toFinset = v.toFinset := by
  ext a
  simp [sortedCats_mem]

theorem sortedCats_ne_nil (v : List String) (hv : v ≠ []) : sortedCats v ≠ [] := by
  intro hnil
  obtain ⟨a, ha⟩ := List.exists_mem_of_ne_nil v hv
  have : a ∈ sortedCats v := (sortedCats_mem v a).mpr ha
  rw [hnil] at this
  exact List.not_mem_nil a this

/-! ## Claim C9 : determinism of the correlation encoding -/

/-- Claim C9: the category-to-column mapping of the one-hot encoding
depends only on the set of observed labels, through their sorted order,
and the full encoded column list is invariant under any permutation of the
input rows. -/
theorem claim9_theorem (rows1 rows2 : List Row) (h : rows1.Perm rows2) :
    encodedColumns rows1 = encodedColumns rows2 ∧
    (∀ (name : String) (v1 v2 : List String), v1.toFinset = v2.toFinset →
      dummyCols name v1 = dummyCols name v2) := by
  have hdcset : ∀ (name : String) (v1 v2 : List String), v1.toFinset = v2.toFinset →
      dummyCols name v1 = dummyCols name v2 := by
    intro name v1 v2 hv
    simp only [dummyCols, sortedCats_eq_of_toFinset_eq v1 v2 hv]
  refine ⟨?_, hdcset⟩
  have hdc : ∀ (name : String) (g : Row → String),
      dummyCols name (rows1.map g) = dummyCols name (rows2.map g) := by
    intro name g
    apply hdcset name
    ext a
    simp only [List.mem_toFinset]
    exact (h.map g).mem_iff
  simp only [encodedColumns, objectFields, List.flatMap_cons, List.flatMap_nil, hdc]

/-- Witness for claim C9 on a concrete two-row table and its reversal. -/
theorem claim9_witness :
    encodedColumns [baseRow, baseRow2016] = encodedColumns [baseRow2016, baseRow] :=
  (claim9_theorem [baseRow, baseRow2016] [baseRow2016, baseRow] (by decide)).1

/-! ## Claim C7 : shape of the encoded matrix -/

theorem dummy_name_ne_treatment (n v : String) : n ++ "_" ++ v ≠ "treatment" := by
  intro h
  have h1 : '_' ∈ (n ++ "_" ++ v).data := by
    simp [String.data_append]
  rw [h] at h1
  exact (by decide : '_' ∉ "treatment".data) h1

/-- Claim C7: in the encoded matrix the treatment column stays a single
column (it is not one-hot expanded, and its 0/1 integer values pass through
unchanged), while every object-typed field is expanded into one indicator
column per observed category minus exactly one dropped reference
category. -/
theorem claim7_theorem (rows : List Row) (hne : rows ≠ []) :
    List.count "treatment" (encodedColumns rows) = 1 ∧
    (∀ f ∈ objectFields,
      (dummyCols f.1 (rows.map f.2)).length + 1 = (rows.map f.2).toFinset.card) ∧
    ((∀ r ∈ rows, r.treatment = 0 ∨ r.treatment = 1) →
      ∀ x ∈ encodedTreatmentCol rows, x = 0 ∨ x = 1) := by
  refine ⟨?_, fun f _ => ?_, fun hr x hx => ?_⟩
  · rw [encodedColumns, List.count_append]
    have hpre : List.count "treatment" ["leave", "treatment", "work_interfere"] = 1 := by
      decide
    have hdummies :
        List.count "treatment"
          (objectFields.flatMap (fun f => dummyCols f.1 (rows.map f.2))) = 0 := by
      rw [List.count_eq_zero]
      intro hmem
      obtain ⟨f, _, hin⟩ := List.mem_flatMap.mp hmem
      obtain ⟨v, _, hv⟩ := List.mem_map.mp hin
      exact dummy_name_ne_treatment f.1 v hv
    rw [hpre, hdummies]
  · have hvne : rows.map f.2 ≠ [] := by
      intro hm
      exact hne (List.map_eq_nil_iff.mp hm)
    have hlen : (sortedCats (rows.map f.2)).length = (rows.map f.2).toFinset.card := by
      rw [← sortedCats_toFinset, List.toFinset_card_of_nodup (sortedCats_nodup _)]
    have hpos : 0 < (sortedCats (rows.map f.2)).length :=
      List.length_pos.mpr (sortedCats_ne_nil _ hvne)
    simp only [dummyCols, List.length_map, List.length_drop]
    omega
  · obtain ⟨r, hrmem, hrx⟩ := List.mem_map.mp hx
    subst hrx
    exact hr r hrmem

/-- Witness for claim C7 on a concrete one-row table. -/
theorem claim7_witness : List.count "treatment" (encodedColumns [baseRow]) = 1 :=
  (claim7_theorem [baseRow] (by decide)).1

/-! ## Claim C10 : Pearson correlation matrix -/

theorem dot_comm (xs ys : List ℚ) : dot xs ys = dot ys xs := by
  induction xs generalizing ys with
  | nil => cases ys <;> simp [dot]
  | cons x xs ih =>
    cases ys with
    | nil => simp [dot]
    | cons y ys' =>
      show x * y + dot xs ys' = y * x + dot ys' xs
      rw [mul_comm, ih ys']

theorem dot_self_nonneg (xs : List ℚ) : 0 ≤ dot xs xs := by
  induction xs with
  | nil => simp [dot]
  | cons x xs ih =>
    show 0 ≤ x * x + dot xs xs
    nlinarith [mul_self_nonneg x]

/-- Claim C10: the Pearson correlation matrix over the encoded numeric
columns is symmetric, and each diagonal entry whose column has nonzero
centred sum of squares (nonzero variance) equals 1. -/
theorem claim10_theorem (cols : List (List ℚ)) (i j : Nat) :
    correlation_matrix cols i j = correlation_matrix cols j i ∧
    (dot (devs (cols.getD i [])) (devs (cols.getD i [])) ≠ 0 →
      correlation_matrix cols i i = 1) := by
  constructor
  · simp only [correlation_matrix, pearson]
    rw [dot_comm (devs (cols.getD i [])) (devs (cols.getD j [])),
      mul_comm (dot (devs (cols.getD i [])) (devs (cols.getD i [])))
        (dot (devs (cols.getD j [])) (devs (cols.getD j [])))]
  · intro hnz
    have hpos : 0 < dot (devs (cols.getD i [])) (devs (cols.getD i [])) :=
      lt_of_le_of_ne (dot_self_nonneg _) (Ne.symm hnz)
    simp only [correlation_matrix, pearson]
    have hcast :
        ((dot (devs (cols.getD i [])) (devs (cols.getD i [])) *
            dot (devs (cols.getD i [])) (devs (cols.getD i [])) : ℚ) : ℝ) =
          ((dot (devs (cols.getD i [])) (devs (cols.getD i [])) : ℚ) : ℝ) *
            ((dot (devs (cols.getD i [])) (devs (cols.getD i [])) : ℚ) : ℝ) := by
      push_cast
      ring
    rw [hcast, Real.sqrt_mul_self (by exact_mod_cast hpos.le)]
    have hne : ((dot (devs (cols.getD i [])) (devs (cols.getD i [])) : ℚ) : ℝ) ≠ 0 := by
      exact_mod_cast hnz
    exact div_self hne

/-- Witness for claim C10 on the concrete column 0, 1, whose centred sum of
squares is 1/2. -/
theorem claim10_witness : correlation_matrix [[0, 1]] 0 0 = 1 := by
  apply (claim10_theorem [[0, 1]] 0 0).2
  norm_num [dot, devs, mean]
